import Mathlib

/-!
Verification of `osm-revert` (`app/main.py`) against its specification.

The file embeds the source shallowly: pure helpers (`build_element_ids_dict`,
`merge_and_sort_diffs`, `filter_discussion_changesets`) become Lean functions
over `List Char` / lists; the external collaborators of `main` (the OSM API,
Overpass, the inverter and the configuration module, none of which are part of
this repository's single source file) are parameters gathered in an `Env`
record, and `main` itself becomes a pure function from `Env` and `Args` to a
result together with a trace of the observable calls it performed.
-/

namespace OsmRevert

/-! ## Python string primitives (ASCII fragment used by the source) -/

/-- Python `str.isspace` characters (ASCII fragment): the characters stripped
by `str.strip()` / `str.lstrip()` with no argument. -/
def pyIsSpace (c : Char) : Bool :=
  c = ' ' || c = '\t' || c = '\n' || c = '\r' || c = '\x0b' || c = '\x0c'

/-- Python `str.lstrip()` on a character list. -/
def pyLstrip (l : List Char) : List Char := l.dropWhile pyIsSpace

/-- Python `str.strip()` on a character list. -/
def pyStrip (l : List Char) : List Char :=
  ((l.dropWhile pyIsSpace).reverse.dropWhile pyIsSpace).reverse

/-- Python `str.startswith` on character lists: first argument is the pattern. -/
def pyStartsWith : List Char → List Char → Bool
  | [], _ => true
  | _ :: _, [] => false
  | a :: as, b :: bs => a = b && pyStartsWith as bs

/-- Python `str.isnumeric` (ASCII fragment): non-empty and all digits. -/
def pyIsNumeric (l : List Char) : Bool := !l.isEmpty && l.all Char.isDigit

/-! ## `build_element_ids_dict` (main.py lines 19-66) -/

/-- The three OSM element types. -/
inductive ElemType
  | node
  | way
  | relation
deriving DecidableEq, Repr

/-- Per-type id sets; Python `set[str]` is modelled as a duplicate-free list. -/
structure TypeSets where
  node : List String := []
  way : List String := []
  relation : List String := []
deriving DecidableEq, Repr

/-- The result of `build_element_ids_dict`: the `'include'` and `'exclude'`
keys of the Python dict. -/
structure ElementIdsDict where
  incl : TypeSets := {}
  excl : TypeSets := {}
deriving DecidableEq, Repr

/-- Errors raised by `build_element_ids_dict` (the two `raise Exception`
sites), with the data interpolated into the Python message as payload. -/
inductive FilterErr
  | nonNumericId (ty : ElemType) (rest : List Char)
  | unknownFormat (rest : List Char)
deriving DecidableEq, Repr

/-- The `prefixes` dict of `build_element_ids_dict`, in source order. -/
def typePfxs : List (ElemType × List (List Char)) :=
  [ (ElemType.node, [['n','o','d','e','s'], ['n','o','d','e'], ['n']]),
    (ElemType.way, [['w','a','y','s'], ['w','a','y'], ['w']]),
    (ElemType.relation,
      [['r','e','l','a','t','i','o','n','s'], ['r','e','l','a','t','i','o','n'],
       ['r','e','l'], ['r']]) ]

/-- Inner `for prefix in value` loop: first matching pattern wins, the matched
pattern is removed from the front. -/
def findPfxIn (s : List Char) : List (List Char) → Option (List Char)
  | [] => none
  | p :: ps => if pyStartsWith p s then some (s.drop p.length) else findPfxIn s ps

/-- Outer `for element_type, value in prefixes.items()` loop with the
`for … else: continue / break` pattern: the first element type owning a
matching pattern wins. -/
def findTypeMatch (s : List Char) : List (ElemType × List (List Char)) → Option (ElemType × List Char)
  | [] => none
  | (ty, ps) :: rest =>
    match findPfxIn s ps with
    | some r => some (ty, r)
    | none => findTypeMatch s rest

/-- Python `set.add` on the duplicate-free-list model. -/
def setAdd (l : List String) (x : String) : List String :=
  if x ∈ l then l else l ++ [x]

/-- `element_result[element_type].add(element_id)`. -/
def addToSets (t : TypeSets) (ty : ElemType) (x : String) : TypeSets :=
  match ty with
  | ElemType.node => { t with node := setAdd t.node x }
  | ElemType.way => { t with way := setAdd t.way x }
  | ElemType.relation => { t with relation := setAdd t.relation x }

/-- Insertion into the include or exclude half of the result dict. -/
def addId (d : ElementIdsDict) (isExcl : Bool) (ty : ElemType) (x : String) : ElementIdsDict :=
  if isExcl then { d with excl := addToSets d.excl ty x }
  else { d with incl := addToSets d.incl ty x }

/-- One iteration of the `for element_id in element_ids` loop of
`build_element_ids_dict`. -/
def processToken (d : ElementIdsDict) (tok : String) : Except FilterErr ElementIdsDict :=
  let s := (pyStrip tok.toList).map Char.toLower
  let isExcl := pyStartsWith ['-'] s
  let s1 :=
    if isExcl then pyLstrip (s.dropWhile (fun c => c = '-'))
    else pyLstrip (s.dropWhile (fun c => c = '+'))
  match findTypeMatch s1 typePfxs with
  | none => Except.error (FilterErr.unknownFormat s1)
  | some (ty, r) =>
    let r2 := pyLstrip (r.dropWhile (fun c => c ∈ [':', ';', '.', ',']))
    if pyIsNumeric r2 then Except.ok (addId d isExcl ty (String.mk r2))
    else Except.error (FilterErr.nonNumericId ty r2)

/-- `build_element_ids_dict` (main.py lines 19-66): folds the tokens through
`processToken`, aborting at the first raised exception. -/
def build_element_ids_dict (element_ids : List String) : Except FilterErr ElementIdsDict :=
  element_ids.foldlM processToken {}

/-! ## `DiffEntry` and `merge_and_sort_diffs` (main.py lines 69-80) -/

/-- Modelled from the spec: `DiffEntry` lives in the repository's
`diff_entry.py`, which is not part of the single source file; the spec (data
model, section 3) gives its fields as ref, nullable old/new version numbers,
timestamp and changeset id.  `merge_and_sort_diffs` itself reads only
`timestamp`. -/
structure DiffEntry where
  ref : Nat
  old_version : Option Nat := none
  new_version : Option Nat := none
  timestamp : Nat
  changeset_id : Nat
deriving DecidableEq, Repr

/-- A per-type diff dict (`dict[str, list[DiffEntry]]` with the three fixed
element-type keys). -/
structure ChangesetDiff where
  node : List DiffEntry := []
  way : List DiffEntry := []
  relation : List DiffEntry := []
deriving DecidableEq, Repr

/-- Comparison used by `sorted(elements, key=lambda t: t.timestamp,
reverse=True)`: `a` may precede `b` iff `a.timestamp ≥ b.timestamp`; Python's
sort is stable, as is `List.mergeSort`. -/
def tsLE (a b : DiffEntry) : Bool := decide (b.timestamp ≤ a.timestamp)

/-- `sorted(elements, key=lambda t: t.timestamp, reverse=True)`. -/
def sortByNewest (l : List DiffEntry) : List DiffEntry := l.mergeSort tsLE

/-- Concatenation step of `merge_and_sort_diffs`: `result[element_type] += elements`. -/
def concatDiff (a b : ChangesetDiff) : ChangesetDiff :=
  ⟨a.node ++ b.node, a.way ++ b.way, a.relation ++ b.relation⟩

/-- `merge_and_sort_diffs` (main.py lines 69-80).  `diffs[0]` raises
`IndexError` on an empty list, modelled as `none`. -/
def merge_and_sort_diffs (diffs : List ChangesetDiff) : Option ChangesetDiff :=
  match diffs with
  | [] => none
  | d :: rest =>
    let m := rest.foldl concatDiff d
    some ⟨sortByNewest m.node, sortByNewest m.way, sortByNewest m.relation⟩

/-! ## `filter_discussion_changesets` (main.py lines 83-92) -/

/-- `filter_discussion_changesets`: `changeset_ids[-1:]` is the last-element
slice, `changeset_ids[:1]` the first-element slice; an unknown (or `None`)
target prints a warning and returns the empty list. -/
def filter_discussion_changesets (changeset_ids : List Nat) (target : Option String) : List Nat :=
  match target with
  | some t =>
    if t = "all" then changeset_ids
    else if t = "newest" then changeset_ids.drop (changeset_ids.length - 1)
    else if t = "oldest" then changeset_ids.take 1
    else []
  | none => []

/-! ## The environment: external collaborators of `main`

`config.py`, `osm.py`, `overpass.py`, `invert.py` and `utils.py` are not part
of the repository's source file; `main` only calls into them.  They are
modelled as an `Env` of pure functions: each field is the observable
behaviour of one collaborator call during this run. -/

/-- The inverted diff (`inverter.invert_diff` result): a per-type dict of
inverted elements, abstracted to their identities; `main` only measures the
lists' lengths and passes the dict through. -/
structure InvertOut where
  node : List Nat := []
  way : List Nat := []
  relation : List Nat := []
deriving DecidableEq, Repr

/-- Observable calls and milestones of one `main` run, in order. -/
inductive Ev
  | login
  | getChangeset (cid : Nat)
  | getUser (cid : Nat)
  | overpassQuery (cid : Nat)
  | updateParents
  | invertDone (size : Nat)
  | buildOsc
  | writeOscFile
  | printOscOut
  | getMaxSize
  | uploadAttempt
  | uploadOk (newId : Nat)
  | postComment (cid : Nat)
deriving DecidableEq, Repr

/-- Which events are network calls against the OSM or Overpass services. -/
def isNetwork : Ev → Bool
  | Ev.login => true
  | Ev.getChangeset _ => true
  | Ev.getUser _ => true
  | Ev.overpassQuery _ => true
  | Ev.updateParents => true
  | Ev.getMaxSize => true
  | Ev.uploadAttempt => true
  | Ev.postComment _ => true
  | _ => false

/-- Events that the retrieval loop can emit. -/
def isLoopEv : Ev → Bool
  | Ev.getChangeset _ => true
  | Ev.getUser _ => true
  | Ev.overpassQuery _ => true
  | _ => false

/-- Exceptions `main` can raise (asserts and runtime errors); the timer
wrapper converts any of them to exit code `-2`. -/
inductive Err
  | missingChangesetId
  | nonNumericChangesetId
  | emptyLimitConfig
  | emptyMinEdits
  | diffTooLarge (diffSize changesetSize : Nat)
  | emptyDiffsIndexError
  | stripNoneDiscussion
deriving DecidableEq, Repr

/-- External collaborators of one `main` run. -/
structure Env where
  /-- `user['changesets']['count']` from `get_authorized_user`. -/
  user_edits : Nat
  /-- `is_osm_moderator(user['roles'])`. -/
  user_is_moderator : Bool
  /-- `CHANGESETS_LIMIT_CONFIG['moderator']` / `CHANGESETS_LIMIT_CONFIG['']`,
  selected by the boolean, as (edit-count key, limit) pairs. -/
  limitConfig : Bool → List (Nat × Nat)
  /-- `CHANGESETS_LIMIT_MODERATOR_REVERT`. -/
  changesets_limit_moderator_revert : Nat
  /-- `get_user` for the changeset author, composed with `is_osm_moderator`;
  `none` models a falsy `changeset_user`. -/
  authorIsModerator : Nat → Option Bool
  /-- The lengths of the id lists in `changeset['partition']`. -/
  partition : Nat → List (List Nat)
  /-- `overpass.get_changeset_elements_history`; `none` models a falsy result. -/
  overpassDiff : Nat → Option ChangesetDiff
  /-- `inverter.invert_diff`. -/
  invertDiff : ChangesetDiff → InvertOut
  /-- `overpass.update_parents`: returns the count of fixed parents and the
  invert dict it may have extended in place. -/
  updateParents : InvertOut → Nat × InvertOut
  /-- `osm.get_changeset_max_size()`. -/
  changesetMaxSize : Nat
  /-- `osm.upload_diff`; `none` models a falsy (failed) upload. -/
  uploadDiff : InvertOut → Option Nat

/-- The arguments of `main` that the modelled behaviour depends on. -/
structure Args where
  changeset_ids : List String
  comment : String := ""
  discussion : Option String := none
  discussion_target : Option String := none
  osc_file : Option String := none
  print_osc : Bool := false
  query_filter : String := ""
deriving Repr

/-- `sum(len(v) for p in changeset['partition'].values() for v in p.values())`. -/
def changesetSize (env : Env) (cid : Nat) : Nat :=
  ((env.partition cid).map List.sum).sum

/-- `sum(len(el) for el in diff.values())`. -/
def diffSize (d : ChangesetDiff) : Nat :=
  d.node.length + d.way.length + d.relation.length

/-- `sum(len(elements) for elements in invert.values())`. -/
def invertSize (v : InvertOut) : Nat :=
  v.node.length + v.way.length + v.relation.length

/-- Python `sorted` on strings: code-point lexicographic, modelled with the
stable merge sort (duplicates are removed before sorting, so stability is
irrelevant here). -/
def sortStrings (l : List String) : List String :=
  l.mergeSort (fun a b => !decide (b < a))

/-- Lines 134-138: `tuple(sorted(set(str(cs_id).strip() for cs_id in
ensure_iterable(changeset_ids) if cs_id)))` for string inputs. -/
def preprocessIds (raw : List String) : List String :=
  sortStrings (((raw.filter (fun s => s ≠ "")).map
    (fun s => String.mk (pyStrip s.toList))).dedup)

/-- `str.isnumeric` on a whole string. -/
def pyNumericStr (s : String) : Bool := pyIsNumeric s.toList

/-- Line 165: `max(v for k, v in changesets_limit_config.items() if k <= user_edits)`;
`none` models the `ValueError` of `max` on an empty sequence. -/
def changesetsLimit (env : Env) : Option Nat :=
  (((env.limitConfig env.user_is_moderator).filter
    (fun p => p.1 ≤ env.user_edits)).map Prod.snd).max?

/-- Line 168: `min(k for k in changesets_limit_config.keys() if k > 0)`. -/
def minPositiveKey (env : Env) : Option Nat :=
  (((env.limitConfig env.user_is_moderator).map Prod.fst).filter
    (fun k => 0 < k)).min?

/-- Line 192: `changeset_user and is_osm_moderator(changeset_user['roles'])`. -/
def modBlocked (env : Env) (cid : Nat) : Bool :=
  match env.authorIsModerator cid with
  | some b => b
  | none => false

/-- Lines 190-191: the author lookup happens only for non-moderators under
the edit-count threshold; this is the event list of that conditional call. -/
def modCheckEvs (env : Env) (cid : Nat) : List Ev :=
  if env.user_edits < env.changesets_limit_moderator_revert && !env.user_is_moderator
  then [Ev.getUser cid] else []

/-- Lines 190-193: does the moderator-authorship guard fire for `cid`? -/
def modCheckHit (env : Env) (cid : Nat) : Bool :=
  (env.user_edits < env.changesets_limit_moderator_revert && !env.user_is_moderator)
    && modBlocked env cid

/-- The `for changeset_id in changeset_ids` loop of `main` (lines 183-222):
returns the events of this suffix of the loop and either an early exit code
(`Sum.inl`), a raised exception, or the collected per-changeset diffs in
iteration order (`Sum.inr`). -/
def mainLoop (env : Env) : List Nat → List Ev × Except Err (Int ⊕ List ChangesetDiff)
  | [] => ([], Except.ok (Sum.inr []))
  | cid :: rest =>
    let evs1 := Ev.getChangeset cid :: modCheckEvs env cid
    if modCheckHit env cid then (evs1, Except.ok (Sum.inl (-1)))
    else
      let csize := changesetSize env cid
      if csize ≠ 0 then
        let evs2 := evs1 ++ [Ev.overpassQuery cid]
        match env.overpassDiff cid with
        | none => (evs2, Except.ok (Sum.inl (-1)))
        | some diff =>
          if diffSize diff ≤ csize then
            let r := mainLoop env rest
            (evs2 ++ r.1,
              match r.2 with
              | Except.ok (Sum.inr ds) => Except.ok (Sum.inr (diff :: ds))
              | other => other)
          else (evs2, Except.error (Err.diffTooLarge (diffSize diff) csize))
      else
        let r := mainLoop env rest
        (evs1 ++ r.1, r.2)

/-- The straight-line tail of `main` after the retrieval loop (lines 224-307),
returning its own events. -/
def mainTail (env : Env) (a : Args) (cids : List Nat)
    (merged : ChangesetDiff) : List Ev × Except Err Int :=
  let inv0 := env.invertDiff merged
  let pr := env.updateParents inv0
  let inv := pr.2
  let isize := invertSize inv
  let evs := [Ev.updateParents, Ev.invertDone isize]
  if isize = 0 then (evs, Except.ok 0)
  else if a.osc_file.isSome || a.print_osc then
    let evs := evs ++ [Ev.buildOsc]
      ++ (if a.osc_file.isSome then [Ev.writeOscFile] else [])
      ++ (if a.print_osc then [Ev.printOscOut] else [])
    (evs, Except.ok 0)
  else
    let evs := evs ++ [Ev.getMaxSize]
    if env.changesetMaxSize < isize then (evs, Except.ok (-1))
    else
      let evs := evs ++ [Ev.uploadAttempt]
      match env.uploadDiff inv with
      | none => (evs, Except.ok (-1))
      | some newId =>
        let evs := evs ++ [Ev.uploadOk newId]
        match a.discussion with
        | none => (evs, Except.error Err.stripNoneDiscussion)
        | some d =>
          let ds := String.mk (pyStrip d.toList)
          if 4 ≤ ds.length then
            let targets := filter_discussion_changesets cids a.discussion_target
            (evs ++ targets.map Ev.postComment, Except.ok 0)
          else (evs, Except.ok 0)

/-- Python `int()` on a numeric string: base-10 digit fold. -/
def pyInt (s : String) : Nat :=
  s.toList.foldl (fun acc c => 10 * acc + (c.toNat - '0'.toNat)) 0

/-- Line 184: `int(changeset_id)` over the validated, sorted, deduplicated ids. -/
def mainCids (a : Args) : List Nat :=
  (preprocessIds a.changeset_ids).map pyInt

/-- `main` (lines 127-307): input validation, login, policy checks, the
retrieval loop, merge, inversion and the output branches, producing the event
trace and the returned exit code or raised exception. -/
def mainRun (env : Env) (a : Args) : List Ev × Except Err Int :=
  let ids := preprocessIds a.changeset_ids
  if ids.isEmpty then ([], Except.error Err.missingChangesetId)
  else if !(ids.all pyNumericStr) then ([], Except.error Err.nonNumericChangesetId)
  else
    match changesetsLimit env with
    | none => ([Ev.login], Except.error Err.emptyLimitConfig)
    | some climit =>
      if climit = 0 then
        match minPositiveKey env with
        | none => ([Ev.login], Except.error Err.emptyMinEdits)
        | some _ => ([Ev.login], Except.ok (-1))
      else if climit < ids.length then ([Ev.login], Except.ok (-1))
      else
        let lp := mainLoop env (mainCids a)
        match lp.2 with
        | Except.error e => (Ev.login :: lp.1, Except.error e)
        | Except.ok (Sum.inl code) => (Ev.login :: lp.1, Except.ok code)
        | Except.ok (Sum.inr diffs) =>
          match merge_and_sort_diffs diffs with
          | none => (Ev.login :: lp.1, Except.error Err.emptyDiffsIndexError)
          | some merged =>
            let t := mainTail env a (mainCids a) merged
            (Ev.login :: lp.1 ++ t.1, t.2)

/-- The `main_timer` decorator (lines 101-115): an uncaught exception becomes
exit code `-2`, otherwise the returned code is passed to `exit`. -/
def main_timer (r : List Ev × Except Err Int) : Int :=
  match r.2 with
  | Except.ok c => c
  | Except.error _ => -2

/-! ## Derived definitions and concrete inputs used by the theorems -/

/-- Newest-edits-first: non-increasing timestamps along the list. -/
def newestFirst (l : List DiffEntry) : Prop :=
  l.Pairwise (fun a b => b.timestamp ≤ a.timestamp)

/-- Stability of the sort: any pair already in weakly descending timestamp
order in `src` keeps its relative order in `out`. -/
def stableFor (src out : List DiffEntry) : Prop :=
  ∀ a b : DiffEntry, tsLE a b → [a, b].Sublist src → [a, b].Sublist out

/-- The ordering relation the spec claims for merged per-type lists: strictly
descending timestamp, ties broken by descending changeset id and then by
descending (new) version. -/
def specMergeOrder (a b : DiffEntry) : Prop :=
  b.timestamp < a.timestamp ∨
    (b.timestamp = a.timestamp ∧
      (b.changeset_id < a.changeset_id ∨
        (b.changeset_id = a.changeset_id ∧ b.new_version.getD 0 ≤ a.new_version.getD 0)))

instance : DecidableRel specMergeOrder := by
  intro a b
  unfold specMergeOrder
  infer_instance

/-- Two equal-timestamp node entries, the lower changeset id arriving first. -/
def cexEntryA : DiffEntry := { ref := 1, timestamp := 5, changeset_id := 1 }

/-- The equal-timestamp entry from the higher (newer) changeset. -/
def cexEntryB : DiffEntry := { ref := 2, timestamp := 5, changeset_id := 2 }

/-- Per-type diffs of two changesets holding `cexEntryA` and `cexEntryB`. -/
def cexDiffs : List ChangesetDiff := [{ node := [cexEntryA] }, { node := [cexEntryB] }]

/-- A newer node entry used in the C2 witness input. -/
def wEntryNew : DiffEntry := { ref := 3, timestamp := 9, changeset_id := 4 }

/-- An older node entry used in the C2 witness input. -/
def wEntryOld : DiffEntry := { ref := 4, timestamp := 2, changeset_id := 4 }

/-- A single diff whose node list arrives oldest-first. -/
def wDiffsC2 : List ChangesetDiff := [{ node := [wEntryOld, wEntryNew] }]

/-- The merged output of `wDiffsC2`: newest-first. -/
def wOutC2 : ChangesetDiff := { node := [wEntryNew, wEntryOld] }

/-- Element 7 as edited by the older changeset 10. -/
def dupEntryOld : DiffEntry := { ref := 7, timestamp := 1, changeset_id := 10 }

/-- Element 7 as edited again by the newer changeset 11. -/
def dupEntryNew : DiffEntry := { ref := 7, timestamp := 6, changeset_id := 11 }

/-- Two changesets both touching node 7. -/
def wDiffsC3 : List ChangesetDiff :=
  [{ node := [dupEntryOld], way := [dupEntryOld] }, { node := [dupEntryNew] }]

/-- The merged output of `wDiffsC3`: node 7 appears twice, newest first. -/
def wOutC3 : ChangesetDiff := { node := [dupEntryNew, dupEntryOld], way := [dupEntryOld] }

/-- The policy stops of `main`: the account-based changesets limit is zero
(too few edits), the limit is below the number of targeted changesets, or a
fetched changeset is moderator-authored while the guard is active. -/
def policyBlocked (env : Env) (a : Args) : Prop :=
  (changesetsLimit env = some 0 ∧ minPositiveKey env ≠ none) ∨
  (∃ L, changesetsLimit env = some L ∧ L ≠ 0 ∧
    L < (preprocessIds a.changeset_ids).length) ∨
  (∃ cid, Ev.getChangeset cid ∈ (mainRun env a).1 ∧
    env.user_edits < env.changesets_limit_moderator_revert ∧
    env.user_is_moderator = false ∧ env.authorIsModerator cid = some true)

/-- A node entry of changeset 7 used by the concrete runs. -/
def wEntryRun : DiffEntry := { ref := 21, timestamp := 4, changeset_id := 7 }

/-- A baseline environment: an ordinary 100-edit user, one changeset of one
element, a one-element invert, a large upload cap, successful upload. -/
def envBase : Env := {
  user_edits := 100
  user_is_moderator := false
  limitConfig := fun _ => [(0, 5)]
  changesets_limit_moderator_revert := 0
  authorIsModerator := fun _ => some false
  partition := fun _ => [[1]]
  overpassDiff := fun _ => some { node := [wEntryRun] }
  invertDiff := fun _ => { node := [11] }
  updateParents := fun v => (0, v)
  changesetMaxSize := 10
  uploadDiff := fun _ => some 9 }

/-- A two-entry diff returned for a changeset declaring one element. -/
def diffC1 : ChangesetDiff := { node := [cexEntryA, cexEntryB] }

/-- Environment whose Overpass diff holds two entries against a declared
changeset size of one: the size assertion must fire. -/
def envC1 : Env := { envBase with overpassDiff := fun _ => some diffC1 }

/-- Environment producing three inverted elements against an upload cap of
two: the revert is too big. -/
def envC4 : Env :=
  { envBase with invertDiff := fun _ => { node := [11, 12, 13] }, changesetMaxSize := 2 }

/-- Environment whose inversion yields nothing: nothing to revert. -/
def envC7 : Env := { envBase with invertDiff := fun _ => {} }

/-- Environment of a 3-edit user whose configuration demands 10 edits: the
account-based limit is zero. -/
def envC8 : Env := { envBase with user_edits := 3, limitConfig := fun _ => [(0, 0), (10, 5)] }

/-- Environment where the moderator guard is active: a 3-edit non-moderator
(below the 10-edit `CHANGESETS_LIMIT_MODERATOR_REVERT` threshold) targets a
changeset authored by a moderator. -/
def envC8guard : Env :=
  { envBase with
    user_edits := 3
    changesets_limit_moderator_revert := 10
    authorIsModerator := fun _ => some true }

/-- Environment where the moderator guard is skipped: a 100-edit
non-moderator (at or above the 10-edit threshold) targets a changeset
authored by a moderator. -/
def envC8free : Env :=
  { envBase with
    changesets_limit_moderator_revert := 10
    authorIsModerator := fun _ => some true }

/-- Environment where every changeset declares zero elements. -/
def envC9 : Env := { envBase with partition := fun _ => [] }

/-- One-changeset argument lists for the concrete runs. -/
def argsOne : Args := { changeset_ids := ["7"] }

/-- Upload-mode run with a 2-character discussion text. -/
def argsC5 : Args := { changeset_ids := ["7"], discussion := some ("ab") }

/-- Upload-mode run with no discussion text at all. -/
def argsC10 : Args := { changeset_ids := ["7"], discussion := none }

/-- A run invoked with no changeset ids. -/
def argsEmpty : Args := { changeset_ids := [] }

/-! ## Lemmas about `merge_and_sort_diffs` -/

theorem tsLE_trans : ∀ (a b c : DiffEntry), tsLE a b → tsLE b c → tsLE a c := by
  intro a b c hab hbc
  simp only [tsLE, decide_eq_true_eq] at *
  omega

theorem tsLE_total : ∀ (a b : DiffEntry), tsLE a b || tsLE b a := by
  intro a b
  simp only [tsLE, Bool.or_eq_true, decide_eq_true_eq]
  omega

theorem foldl_concatDiff_proj (f : ChangesetDiff → List DiffEntry)
    (hf : ∀ a b, f (concatDiff a b) = f a ++ f b) :
    ∀ (rest : List ChangesetDiff) (d : ChangesetDiff),
      f (rest.foldl concatDiff d) = f d ++ (rest.map f).flatten := by
  intro rest
  induction rest with
  | nil => intro d; simp
  | cons x xs ih => intro d; simp [List.foldl_cons, ih, hf]

/-- The merged output is, per type, the stable timestamp-descending sort of
the concatenation of that type's input lists. -/
theorem merge_and_sort_diffs_eq (d : ChangesetDiff) (rest : List ChangesetDiff) :
    merge_and_sort_diffs (d :: rest) =
      some ⟨sortByNewest (((d :: rest).map (fun x => x.node)).flatten),
            sortByNewest (((d :: rest).map (fun x => x.way)).flatten),
            sortByNewest (((d :: rest).map (fun x => x.relation)).flatten)⟩ := by
  simp only [merge_and_sort_diffs, List.map_cons, List.flatten_cons]
  congr 2
  · rw [foldl_concatDiff_proj (fun x => x.node) (by intro a b; rfl)]
  · rw [foldl_concatDiff_proj (fun x => x.way) (by intro a b; rfl)]
  · rw [foldl_concatDiff_proj (fun x => x.relation) (by intro a b; rfl)]

theorem sortByNewest_pairwise (l : List DiffEntry) :
    (sortByNewest l).Pairwise (fun a b => b.timestamp ≤ a.timestamp) := by
  have h := List.sorted_mergeSort tsLE_trans tsLE_total l
  refine h.imp ?_
  intro a b hab
  simpa [tsLE] using hab

theorem sortByNewest_perm (l : List DiffEntry) : (sortByNewest l).Perm l :=
  List.mergeSort_perm l tsLE

theorem sortByNewest_stable (l : List DiffEntry) : stableFor l (sortByNewest l) := by
  intro a b hab hsub
  exact List.pair_sublist_mergeSort tsLE_trans tsLE_total hab hsub

/-! ## Lemmas about `mainLoop` -/

theorem mem_modCheckEvs {env : Env} {cid : Nat} {e : Ev}
    (h : e ∈ modCheckEvs env cid) : e = Ev.getUser cid := by
  unfold modCheckEvs at h
  split at h <;> simp at h
  exact h

theorem mainLoop_cons_blocked {env : Env} {cid : Nat} (rest : List Nat)
    (h : modCheckHit env cid = true) :
    mainLoop env (cid :: rest) =
      (Ev.getChangeset cid :: modCheckEvs env cid, Except.ok (Sum.inl (-1))) := by
  simp [mainLoop, h]

theorem mainLoop_cons_empty {env : Env} {cid : Nat} (rest : List Nat)
    (h : modCheckHit env cid = false) (h2 : changesetSize env cid = 0) :
    mainLoop env (cid :: rest) =
      ((Ev.getChangeset cid :: modCheckEvs env cid) ++ (mainLoop env rest).1,
        (mainLoop env rest).2) := by
  simp [mainLoop, h, h2]

theorem mainLoop_cons_fetchFail {env : Env} {cid : Nat} (rest : List Nat)
    (h : modCheckHit env cid = false) (h2 : changesetSize env cid ≠ 0)
    (h3 : env.overpassDiff cid = none) :
    mainLoop env (cid :: rest) =
      ((Ev.getChangeset cid :: modCheckEvs env cid) ++ [Ev.overpassQuery cid],
        Except.ok (Sum.inl (-1))) := by
  simp [mainLoop, h, h2, h3]

theorem mainLoop_cons_oversize {env : Env} {cid : Nat} {d : ChangesetDiff} (rest : List Nat)
    (h : modCheckHit env cid = false) (h2 : changesetSize env cid ≠ 0)
    (h3 : env.overpassDiff cid = some d) (h4 : ¬ diffSize d ≤ changesetSize env cid) :
    mainLoop env (cid :: rest) =
      ((Ev.getChangeset cid :: modCheckEvs env cid) ++ [Ev.overpassQuery cid],
        Except.error (Err.diffTooLarge (diffSize d) (changesetSize env cid))) := by
  simp [mainLoop, h, h2, h3, h4]

theorem mainLoop_cons_ok {env : Env} {cid : Nat} {d : ChangesetDiff} (rest : List Nat)
    (h : modCheckHit env cid = false) (h2 : changesetSize env cid ≠ 0)
    (h3 : env.overpassDiff cid = some d) (h4 : diffSize d ≤ changesetSize env cid) :
    mainLoop env (cid :: rest) =
      ((Ev.getChangeset cid :: modCheckEvs env cid) ++
          Ev.overpassQuery cid :: (mainLoop env rest).1,
        match (mainLoop env rest).2 with
        | Except.ok (Sum.inr ds) => Except.ok (Sum.inr (d :: ds))
        | other => other) := by
  simp [mainLoop, h, h2, h3, h4]

/-- Every event the loop emits is a changeset fetch, an author lookup or an
Overpass query. -/
theorem mainLoop_events_loopEv (env : Env) :
    ∀ (cids : List Nat), ∀ e ∈ (mainLoop env cids).1, isLoopEv e = true := by
  intro cids
  induction cids with
  | nil => intro e he; simp [mainLoop] at he
  | cons cid rest ih =>
    intro e he
    by_cases h : modCheckHit env cid = true
    · rw [mainLoop_cons_blocked rest h] at he
      rcases List.mem_cons.mp he with rfl | hm
      · rfl
      · rw [mem_modCheckEvs hm]; rfl
    · rw [Bool.not_eq_true] at h
      by_cases h2 : changesetSize env cid = 0
      · rw [mainLoop_cons_empty rest h h2] at he
        rcases List.mem_append.mp he with hm | hm
        · rcases List.mem_cons.mp hm with rfl | hm2
          · rfl
          · rw [mem_modCheckEvs hm2]; rfl
        · exact ih e hm
      · rcases h3 : env.overpassDiff cid with _ | d
        · rw [mainLoop_cons_fetchFail rest h h2 h3] at he
          rcases List.mem_append.mp he with hm | hm
          · rcases List.mem_cons.mp hm with rfl | hm2
            · rfl
            · rw [mem_modCheckEvs hm2]; rfl
          · rw [List.mem_singleton.mp hm]; rfl
        · by_cases h4 : diffSize d ≤ changesetSize env cid
          · rw [mainLoop_cons_ok rest h h2 h3 h4] at he
            rcases List.mem_append.mp he with hm | hm
            · rcases List.mem_cons.mp hm with rfl | hm2
              · rfl
              · rw [mem_modCheckEvs hm2]; rfl
            · rcases List.mem_cons.mp hm with rfl | hm2
              · rfl
              · exact ih e hm2
          · rw [mainLoop_cons_oversize rest h h2 h3 h4] at he
            rcases List.mem_append.mp he with hm | hm
            · rcases List.mem_cons.mp hm with rfl | hm2
              · rfl
              · rw [mem_modCheckEvs hm2]; rfl
            · rw [List.mem_singleton.mp hm]; rfl

/-- If a queried changeset's diff exceeds its declared size, the loop ends in
the `diffTooLarge` assertion failure. -/
theorem mainLoop_violation (env : Env) :
    ∀ (cids : List Nat) (cid : Nat) (d : ChangesetDiff),
      Ev.overpassQuery cid ∈ (mainLoop env cids).1 →
      env.overpassDiff cid = some d →
      changesetSize env cid < diffSize d →
      (mainLoop env cids).2 =
        Except.error (Err.diffTooLarge (diffSize d) (changesetSize env cid)) := by
  intro cids
  induction cids with
  | nil => intro cid d he _ _; simp [mainLoop] at he
  | cons c rest ih =>
    intro cid d he hd hlt
    by_cases h : modCheckHit env c = true
    · rw [mainLoop_cons_blocked rest h] at he ⊢
      rcases List.mem_cons.mp he with h' | h'
      · exact absurd h' (by simp)
      · exact absurd (mem_modCheckEvs h') (by simp)
    · rw [Bool.not_eq_true] at h
      by_cases h2 : changesetSize env c = 0
      · rw [mainLoop_cons_empty rest h h2] at he ⊢
        rcases List.mem_append.mp he with h' | h'
        · rcases List.mem_cons.mp h' with h'' | h''
          · exact absurd h'' (by simp)
          · exact absurd (mem_modCheckEvs h'') (by simp)
        · exact ih cid d h' hd hlt
      · rcases h3 : env.overpassDiff c with _ | d0
        · rw [mainLoop_cons_fetchFail rest h h2 h3] at he ⊢
          rcases List.mem_append.mp he with h' | h'
          · rcases List.mem_cons.mp h' with h'' | h''
            · exact absurd h'' (by simp)
            · exact absurd (mem_modCheckEvs h'') (by simp)
          · have : cid = c := by simpa using List.mem_singleton.mp h'
            subst this
            rw [hd] at h3
            exact absurd h3 (by simp)
        · by_cases h4 : diffSize d0 ≤ changesetSize env c
          · rw [mainLoop_cons_ok rest h h2 h3 h4] at he ⊢
            rcases List.mem_append.mp he with h' | h'
            · rcases List.mem_cons.mp h' with h'' | h''
              · exact absurd h'' (by simp)
              · exact absurd (mem_modCheckEvs h'') (by simp)
            · rcases List.mem_cons.mp h' with h'' | h''
              · have : cid = c := by simpa using h''
                subst this
                rw [hd] at h3
                injection h3 with h3
                subst h3
                omega
              · rw [ih cid d h'' hd hlt]
          · rw [mainLoop_cons_oversize rest h h2 h3 h4] at he ⊢
            rcases List.mem_append.mp he with h' | h'
            · rcases List.mem_cons.mp h' with h'' | h''
              · exact absurd h'' (by simp)
              · exact absurd (mem_modCheckEvs h'') (by simp)
            · have : cid = c := by simpa using List.mem_singleton.mp h'
              subst this
              rw [hd] at h3
              injection h3 with h3
              subst h3
              rfl

/-- Completing the loop implies every queried changeset's diff fitted its
declared size. -/
theorem mainLoop_inr_sizes {env : Env} {cids : List Nat} {out : List ChangesetDiff}
    (hr : (mainLoop env cids).2 = Except.ok (Sum.inr out)) :
    ∀ (cid : Nat) (d : ChangesetDiff), Ev.overpassQuery cid ∈ (mainLoop env cids).1 →
      env.overpassDiff cid = some d → diffSize d ≤ changesetSize env cid := by
  intro cid d he hd
  by_contra hlt
  rw [mainLoop_violation env cids cid d he hd (by omega)] at hr
  exact Except.noConfusion hr

/-- A changeset fetched while the moderator guard fires for it makes the loop
return `-1` immediately. -/
theorem mainLoop_blocked_result (env : Env) :
    ∀ (cids : List Nat) (cid : Nat),
      Ev.getChangeset cid ∈ (mainLoop env cids).1 →
      modCheckHit env cid = true →
      (mainLoop env cids).2 = Except.ok (Sum.inl (-1)) := by
  intro cids
  induction cids with
  | nil => intro cid he _; simp [mainLoop] at he
  | cons c rest ih =>
    intro cid he hhit
    by_cases h : modCheckHit env c = true
    · rw [mainLoop_cons_blocked rest h]
    · rw [Bool.not_eq_true] at h
      by_cases h2 : changesetSize env c = 0
      · rw [mainLoop_cons_empty rest h h2] at he ⊢
        rcases List.mem_append.mp he with h' | h'
        · rcases List.mem_cons.mp h' with h'' | h''
          · have : cid = c := by simpa using h''
            subst this
            rw [hhit] at h
            exact absurd h (by simp)
          · exact absurd (mem_modCheckEvs h'') (by simp)
        · exact ih cid h' hhit
      · rcases h3 : env.overpassDiff c with _ | d0
        · rw [mainLoop_cons_fetchFail rest h h2 h3]
        · by_cases h4 : diffSize d0 ≤ changesetSize env c
          · rw [mainLoop_cons_ok rest h h2 h3 h4] at he ⊢
            rcases List.mem_append.mp he with h' | h'
            · rcases List.mem_cons.mp h' with h'' | h''
              · have : cid = c := by simpa using h''
                subst this
                rw [hhit] at h
                exact absurd h (by simp)
              · exact absurd (mem_modCheckEvs h'') (by simp)
            · rcases List.mem_cons.mp h' with h'' | h''
              · exact absurd h'' (by simp)
              · rw [ih cid h'' hhit]
          · rw [mainLoop_cons_oversize rest h h2 h3 h4] at he ⊢
            rcases List.mem_append.mp he with h' | h'
            · rcases List.mem_cons.mp h' with h'' | h''
              · have : cid = c := by simpa using h''
                subst this
                rw [hhit] at h
                exact absurd h (by simp)
              · exact absurd (mem_modCheckEvs h'') (by simp)
            · exact absurd (List.mem_singleton.mp h') (by simp)

/-- When every targeted changeset declares zero elements (and no moderator
guard fires), the loop completes with an empty diff list. -/
theorem mainLoop_all_empty (env : Env) :
    ∀ (cids : List Nat),
      (∀ cid ∈ cids, changesetSize env cid = 0) →
      (∀ cid ∈ cids, modCheckHit env cid = false) →
      (mainLoop env cids).2 = Except.ok (Sum.inr []) := by
  intro cids
  induction cids with
  | nil => simp [mainLoop]
  | cons c rest ih =>
    intro hsz hmb
    rw [mainLoop_cons_empty rest (hmb c (by simp)) (hsz c (by simp))]
    exact ih (fun cid hm => hsz cid (by simp [hm])) (fun cid hm => hmb cid (by simp [hm]))

/-! ## Lemmas about `mainTail` -/

/-- The only `invertDone` event `mainTail` can emit carries the inverted size
measured after `update_parents`. -/
theorem mainTail_invertDone {env : Env} {a : Args} {cids : List Nat}
    {merged : ChangesetDiff} {s : Nat}
    (h : Ev.invertDone s ∈ (mainTail env a cids merged).1) :
    s = invertSize (env.updateParents (env.invertDiff merged)).2 := by
  by_cases hz : invertSize (env.updateParents (env.invertDiff merged)).2 = 0 <;>
  by_cases hosc : (a.osc_file.isSome || a.print_osc) = true <;>
  by_cases hcap : env.changesetMaxSize < invertSize (env.updateParents (env.invertDiff merged)).2 <;>
  rcases hup : env.uploadDiff (env.updateParents (env.invertDiff merged)).2 with _ | i <;>
  rcases hd : a.discussion with _ | dtext <;>
  simp [mainTail, hz, hosc, hcap, hup, hd] at h <;>
  first
  | ((rcases h with h | h) <;> simp_all <;> done)
  | (simp_all <;> done)
  | omega
  | (by_cases hlen : 4 ≤ (pyStrip dtext.data).length <;> simp [hlen] at h <;> simp_all)

/-- Zero inverted elements: report success immediately. -/
theorem mainTail_zero {env : Env} (a : Args) (cids : List Nat) {merged : ChangesetDiff}
    (h : invertSize (env.updateParents (env.invertDiff merged)).2 = 0) :
    mainTail env a cids merged = ([Ev.updateParents, Ev.invertDone 0], Except.ok 0) := by
  simp [mainTail, h]

/-- Upload mode with an inverted size above the service cap: failure without
an upload attempt. -/
theorem mainTail_tooBig {env : Env} {a : Args} (cids : List Nat) {merged : ChangesetDiff}
    (h0 : invertSize (env.updateParents (env.invertDiff merged)).2 ≠ 0)
    (h1 : a.osc_file = none) (h2 : a.print_osc = false)
    (h3 : env.changesetMaxSize < invertSize (env.updateParents (env.invertDiff merged)).2) :
    mainTail env a cids merged =
      ([Ev.updateParents,
        Ev.invertDone (invertSize (env.updateParents (env.invertDiff merged)).2),
        Ev.getMaxSize], Except.ok (-1)) := by
  simp [mainTail, h0, h1, h2, h3]

/-- A successful upload with no discussion text ends in the
`None.strip()` `AttributeError`. -/
theorem mainTail_uploadOk_discussion_none {env : Env} {a : Args} {cids : List Nat}
    {merged : ChangesetDiff} {i : Nat}
    (h : Ev.uploadOk i ∈ (mainTail env a cids merged).1)
    (hd : a.discussion = none) :
    (mainTail env a cids merged).2 = Except.error Err.stripNoneDiscussion := by
  by_cases hz : invertSize (env.updateParents (env.invertDiff merged)).2 = 0 <;>
  by_cases hosc : (a.osc_file.isSome || a.print_osc) = true <;>
  by_cases hcap : env.changesetMaxSize < invertSize (env.updateParents (env.invertDiff merged)).2 <;>
  rcases hup : env.uploadDiff (env.updateParents (env.invertDiff merged)).2 with _ | j <;>
  simp [mainTail, hz, hosc, hcap, hup, hd] at h ⊢

/-- `mainTail` never emits loop events. -/
theorem mainTail_no_loopEv {env : Env} {a : Args} {cids : List Nat}
    {merged : ChangesetDiff} :
    ∀ e ∈ (mainTail env a cids merged).1, isLoopEv e = false := by
  intro e he
  cases e <;> first
  | rfl
  | (rcases hup : env.uploadDiff (env.updateParents (env.invertDiff merged)).2 with _ | i <;>
     rcases hd : a.discussion with _ | dtext <;>
     simp only [mainTail, apply_ite Prod.fst, hup, hd] at he <;>
     repeat' split at he <;>
     simp_all)

/-- A successful upload with a sub-4-character stripped discussion text:
success, but no discussion comment is posted. -/
theorem mainTail_uploadOk_short_discussion {env : Env} {a : Args} {cids : List Nat}
    {merged : ChangesetDiff} {i : Nat} {dtext : String}
    (h : Ev.uploadOk i ∈ (mainTail env a cids merged).1)
    (hd : a.discussion = some dtext)
    (hlen : ¬ 4 ≤ (String.mk (pyStrip dtext.toList)).length) :
    (mainTail env a cids merged).2 = Except.ok 0 ∧
    ∀ j, Ev.postComment j ∉ (mainTail env a cids merged).1 := by
  have hlen2 : ¬ 4 ≤ (pyStrip dtext.data).length := by simpa using hlen
  by_cases hz : invertSize (env.updateParents (env.invertDiff merged)).2 = 0 <;>
  by_cases hosc : (a.osc_file.isSome || a.print_osc) = true <;>
  by_cases hcap : env.changesetMaxSize < invertSize (env.updateParents (env.invertDiff merged)).2 <;>
  rcases hup : env.uploadDiff (env.updateParents (env.invertDiff merged)).2 with _ | j <;>
  simp [mainTail, hz, hosc, hcap, hup, hd, hlen2] at h ⊢ <;>
  simp_all

theorem not_mem_mainLoop {env : Env} {cids : List Nat} {e : Ev}
    (h : isLoopEv e = false) : e ∉ (mainLoop env cids).1 := by
  intro hm
  have h2 := mainLoop_events_loopEv env cids e hm
  rw [h] at h2
  exact Bool.noConfusion h2

theorem not_mem_mainTail {env : Env} {a : Args} {cids : List Nat}
    {merged : ChangesetDiff} {e : Ev}
    (h : isLoopEv e = true) : e ∉ (mainTail env a cids merged).1 := by
  intro hm
  have h2 := mainTail_no_loopEv e hm
  rw [h] at h2
  exact Bool.noConfusion h2

/-- Case analysis of a whole `main` run: validation failure, login-only exits,
a loop-terminated run, the empty-merge crash, or a completed tail. -/
theorem mainRun_shape (env : Env) (a : Args) :
    (mainRun env a = ([], Except.error Err.missingChangesetId)) ∨
    (mainRun env a = ([], Except.error Err.nonNumericChangesetId)) ∨
    (mainRun env a = ([Ev.login], Except.error Err.emptyLimitConfig)) ∨
    (mainRun env a = ([Ev.login], Except.error Err.emptyMinEdits)) ∨
    (mainRun env a = ([Ev.login], Except.ok (-1))) ∨
    (∃ er, (mainLoop env (mainCids a)).2 = Except.error er ∧
      mainRun env a = (Ev.login :: (mainLoop env (mainCids a)).1, Except.error er)) ∨
    (∃ code, (mainLoop env (mainCids a)).2 = Except.ok (Sum.inl code) ∧
      mainRun env a = (Ev.login :: (mainLoop env (mainCids a)).1, Except.ok code)) ∨
    (∃ diffs, (mainLoop env (mainCids a)).2 = Except.ok (Sum.inr diffs) ∧
      merge_and_sort_diffs diffs = none ∧
      mainRun env a =
        (Ev.login :: (mainLoop env (mainCids a)).1, Except.error Err.emptyDiffsIndexError)) ∨
    (∃ diffs merged, (mainLoop env (mainCids a)).2 = Except.ok (Sum.inr diffs) ∧
      merge_and_sort_diffs diffs = some merged ∧
      mainRun env a =
        (Ev.login :: (mainLoop env (mainCids a)).1 ++ (mainTail env a (mainCids a) merged).1,
          (mainTail env a (mainCids a) merged).2)) := by
  by_cases h1 : (preprocessIds a.changeset_ids).isEmpty = true
  · exact Or.inl (by simp [mainRun, h1])
  · by_cases h2 : (preprocessIds a.changeset_ids).all pyNumericStr = false
    · exact Or.inr (Or.inl (by simp [mainRun, h1, h2]))
    · rcases h3 : changesetsLimit env with _ | climit
      · exact Or.inr (Or.inr (Or.inl (by simp [mainRun, h1, h2, h3])))
      · by_cases h4 : climit = 0
        · rcases h5 : minPositiveKey env with _ | k
          · exact Or.inr (Or.inr (Or.inr (Or.inl (by simp [mainRun, h1, h2, h3, h4, h5]))))
          · exact Or.inr (Or.inr (Or.inr (Or.inr (Or.inl
              (by simp [mainRun, h1, h2, h3, h4, h5])))))
        · by_cases h6 : climit < (preprocessIds a.changeset_ids).length
          · exact Or.inr (Or.inr (Or.inr (Or.inr (Or.inl
              (by simp [mainRun, h1, h2, h3, h4, h6])))))
          · rcases h7 : (mainLoop env (mainCids a)).2 with er | code | diffs
            · refine Or.inr (Or.inr (Or.inr (Or.inr (Or.inr (Or.inl ⟨er, rfl, ?_⟩)))))
              simp [mainRun, h1, h2, h3, h4, h6, h7]
            · refine Or.inr (Or.inr (Or.inr (Or.inr (Or.inr (Or.inr (Or.inl
                ⟨code, rfl, ?_⟩))))))
              simp [mainRun, h1, h2, h3, h4, h6, h7]
            · rcases h8 : merge_and_sort_diffs diffs with _ | merged
              · refine Or.inr (Or.inr (Or.inr (Or.inr (Or.inr (Or.inr (Or.inr (Or.inl
                  ⟨diffs, rfl, h8, ?_⟩)))))))
                simp [mainRun, h1, h2, h3, h4, h6, h7, h8]
              · refine Or.inr (Or.inr (Or.inr (Or.inr (Or.inr (Or.inr (Or.inr (Or.inr
                  ⟨diffs, merged, rfl, h8, ?_⟩)))))))
                simp [mainRun, h1, h2, h3, h4, h6, h7, h8]

/-! ## Claim C1 -/

/-- C1: a fetched diff larger than its changeset's declared element count
makes `main` abort with the size-assertion failure before inversion or
upload; and whenever `main` proceeds past retrieval (an inversion happened),
every retrieved diff satisfied `diff_size <= changeset_size`. -/
theorem claim_C1 (env : Env) (a : Args) :
    (∀ (cid : Nat) (d : ChangesetDiff),
      Ev.overpassQuery cid ∈ (mainRun env a).1 →
      env.overpassDiff cid = some d →
      changesetSize env cid < diffSize d →
      (mainRun env a).2 =
        Except.error (Err.diffTooLarge (diffSize d) (changesetSize env cid)) ∧
      (∀ s, Ev.invertDone s ∉ (mainRun env a).1) ∧
      Ev.uploadAttempt ∉ (mainRun env a).1) ∧
    (∀ (s cid : Nat) (d : ChangesetDiff),
      Ev.invertDone s ∈ (mainRun env a).1 →
      Ev.overpassQuery cid ∈ (mainRun env a).1 →
      env.overpassDiff cid = some d →
      diffSize d ≤ changesetSize env cid) := by
  constructor
  · intro cid d he hd hlt
    rcases mainRun_shape env a with h | h | h | h | h | ⟨er, hl, h⟩ | ⟨code, hl, h⟩ |
      ⟨diffs, hl, hm, h⟩ | ⟨diffs, merged, hl, hm, h⟩
    · rw [h] at he; simp at he
    · rw [h] at he; simp at he
    · rw [h] at he; simp at he
    · rw [h] at he; simp at he
    · rw [h] at he; simp at he
    · rw [h] at he ⊢
      simp only [List.mem_cons] at he
      rcases he with he | he
      · exact Ev.noConfusion he
      · have hv := mainLoop_violation env (mainCids a) cid d he hd hlt
        rw [hl] at hv
        injection hv with hv
        subst hv
        refine ⟨rfl, ?_, ?_⟩
        · intro s hs
          simp only [List.mem_cons] at hs
          rcases hs with hs | hs
          · exact Ev.noConfusion hs
          · exact not_mem_mainLoop (by simp [isLoopEv]) hs
        · intro hs
          simp only [List.mem_cons] at hs
          rcases hs with hs | hs
          · exact Ev.noConfusion hs
          · exact not_mem_mainLoop (by simp [isLoopEv]) hs
    · rw [h] at he
      simp only [List.mem_cons] at he
      rcases he with he | he
      · exact Ev.noConfusion he
      · have hv := mainLoop_violation env (mainCids a) cid d he hd hlt
        rw [hl] at hv
        exact Except.noConfusion hv
    · rw [h] at he
      simp only [List.mem_cons] at he
      rcases he with he | he
      · exact Ev.noConfusion he
      · have hv := mainLoop_violation env (mainCids a) cid d he hd hlt
        rw [hl] at hv
        exact Except.noConfusion hv
    · rw [h] at he
      simp only [List.cons_append, List.mem_cons, List.mem_append] at he
      rcases he with he | he | he
      · exact Ev.noConfusion he
      · have hv := mainLoop_violation env (mainCids a) cid d he hd hlt
        rw [hl] at hv
        exact Except.noConfusion hv
      · exact absurd he (not_mem_mainTail (by simp [isLoopEv]))
  · intro s cid d hs hq hd
    rcases mainRun_shape env a with h | h | h | h | h | ⟨er, hl, h⟩ | ⟨code, hl, h⟩ |
      ⟨diffs, hl, hm, h⟩ | ⟨diffs, merged, hl, hm, h⟩
    · rw [h] at hs; simp at hs
    · rw [h] at hs; simp at hs
    · rw [h] at hs; simp at hs
    · rw [h] at hs; simp at hs
    · rw [h] at hs; simp at hs
    · rw [h] at hs
      simp only [List.mem_cons] at hs
      rcases hs with hs | hs
      · exact Ev.noConfusion hs
      · exact absurd hs (not_mem_mainLoop (by simp [isLoopEv]))
    · rw [h] at hs
      simp only [List.mem_cons] at hs
      rcases hs with hs | hs
      · exact Ev.noConfusion hs
      · exact absurd hs (not_mem_mainLoop (by simp [isLoopEv]))
    · rw [h] at hs
      simp only [List.mem_cons] at hs
      rcases hs with hs | hs
      · exact Ev.noConfusion hs
      · exact absurd hs (not_mem_mainLoop (by simp [isLoopEv]))
    · rw [h] at hq
      simp only [List.cons_append, List.mem_cons, List.mem_append] at hq
      rcases hq with hq | hq | hq
      · exact Ev.noConfusion hq
      · exact mainLoop_inr_sizes hl cid d hq hd
      · exact absurd hq (not_mem_mainTail (by simp [isLoopEv]))

/-! ## Character-level lemmas for the element-filter parser -/

theorem dropWhile_eq_self (p : Char → Bool) (l : List Char)
    (h : ∀ c ∈ l, p c = false) : l.dropWhile p = l := by
  cases l with
  | nil => rfl
  | cons a t => simp [List.dropWhile_cons, h a (by simp)]

theorem digit_val_le {c : Char} (h : c.isDigit = true) : c.val.toNat ≤ 57 := by
  unfold Char.isDigit at h
  simp only [Bool.and_eq_true, decide_eq_true_eq] at h
  exact UInt32.toNat_le_of_le (by decide) h.2

theorem digit_val_ge {c : Char} (h : c.isDigit = true) : 48 ≤ c.val.toNat := by
  unfold Char.isDigit at h
  simp only [ge_iff_le, Bool.and_eq_true, decide_eq_true_eq] at h
  exact UInt32.le_toNat_of_le (by decide) h.1

theorem digit_not_space {c : Char} (h : c.isDigit = true) : pyIsSpace c = false := by
  have h1 := digit_val_ge h
  unfold pyIsSpace
  simp only [Bool.or_eq_false_iff, decide_eq_false_iff_not]
  refine ⟨⟨⟨⟨⟨?_, ?_⟩, ?_⟩, ?_⟩, ?_⟩, ?_⟩ <;>
    (rintro rfl; revert h1; decide)

theorem digit_toLower {c : Char} (h : c.isDigit = true) : c.toLower = c := by
  have h2 := digit_val_le h
  unfold Char.toLower
  rw [if_neg]
  simp only [ge_iff_le, not_and, not_le, Char.toNat]
  intro h65
  omega

theorem digit_ne {d c : Char} (hd : d.isDigit = true) (hc : c.isDigit = false) :
    (d = c) = False := by
  simp only [eq_iff_iff, iff_false]
  intro hEq
  subst hEq
  rw [hd] at hc
  exact Bool.noConfusion hc

theorem pyStartsWith_not_digit (c : Char) {cs digits : List Char}
    (hc : c.isDigit = false) (hd : ∀ x ∈ digits, x.isDigit = true) :
    pyStartsWith (c :: cs) digits = false := by
  cases digits with
  | nil => rfl
  | cons d rest =>
    have hdd := hd d (by simp)
    simp only [pyStartsWith, Bool.and_eq_false_iff, decide_eq_false_iff_not]
    left
    intro hEq
    rw [hEq, hdd] at hc
    exact Bool.noConfusion hc

theorem pyStrip_eq_self (l : List Char) (h : ∀ c ∈ l, pyIsSpace c = false) :
    pyStrip l = l := by
  unfold pyStrip
  rw [dropWhile_eq_self _ _ h, dropWhile_eq_self, List.reverse_reverse]
  intro c hc
  exact h c (List.mem_reverse.mp hc)

theorem map_toLower_fixed (l : List Char) (h : ∀ c ∈ l, c.toLower = c) :
    l.map Char.toLower = l := by
  induction l with
  | nil => rfl
  | cons a t ih =>
    simp only [List.map_cons, h a (by simp)]
    rw [ih (fun c hc => h c (by simp [hc]))]

theorem findTypeMatch_canonical {digits : List Char}
    (hd : ∀ c ∈ digits, c.isDigit = true) :
    ∀ (ty : ElemType) (ps : List (List Char)) (p : List Char),
      (ty, ps) ∈ typePfxs → p ∈ ps →
      findTypeMatch (p ++ digits) typePfxs = some (ty, digits) := by
  have hs : ∀ cs : List Char, pyStartsWith ('s' :: cs) digits = false :=
    fun cs => pyStartsWith_not_digit 's' (by decide) hd
  have ho : ∀ cs : List Char, pyStartsWith ('o' :: cs) digits = false :=
    fun cs => pyStartsWith_not_digit 'o' (by decide) hd
  have ha : ∀ cs : List Char, pyStartsWith ('a' :: cs) digits = false :=
    fun cs => pyStartsWith_not_digit 'a' (by decide) hd
  have he : ∀ cs : List Char, pyStartsWith ('e' :: cs) digits = false :=
    fun cs => pyStartsWith_not_digit 'e' (by decide) hd
  intro ty ps p hmem hp
  simp only [typePfxs, List.mem_cons, List.not_mem_nil, or_false,
    Prod.mk.injEq] at hmem
  rcases hmem with ⟨rfl, rfl⟩ | ⟨rfl, rfl⟩ | ⟨rfl, rfl⟩ <;>
    simp only [List.mem_cons, List.not_mem_nil, or_false] at hp
  · rcases hp with rfl | rfl | rfl <;>
      simp [findTypeMatch, findPfxIn, pyStartsWith, hs, ho, ha, he]
  · rcases hp with rfl | rfl | rfl <;>
      simp [findTypeMatch, findPfxIn, pyStartsWith, hs, ho, ha, he]
  · rcases hp with rfl | rfl | rfl | rfl <;>
      simp [findTypeMatch, findPfxIn, pyStartsWith, hs, ho, ha, he]

theorem processToken_canonical (d : ElementIdsDict) (sign : Bool) {ty : ElemType}
    {ps : List (List Char)} {p digits : List Char}
    (hmem : (ty, ps) ∈ typePfxs) (hp : p ∈ ps)
    (hne : digits ≠ []) (hd : ∀ c ∈ digits, c.isDigit = true) :
    processToken d (String.mk ((if sign then ['-'] else []) ++ p ++ digits)) =
      Except.ok (addId d sign ty (String.mk digits)) := by
  have hChars : ∀ pr ∈ typePfxs, ∀ q ∈ pr.2, ∀ c ∈ q,
      pyIsSpace c = false ∧ c.toLower = c ∧ (('-' : Char) = c) = False ∧
      (c = '-') = False ∧ (c = '+') = False := by decide
  have hpne : ∀ pr ∈ typePfxs, ∀ q ∈ pr.2, q ≠ [] := by decide
  obtain ⟨c0, ptl, rfl⟩ : ∃ c0 ptl, p = c0 :: ptl := by
    cases p with
    | nil => exact absurd rfl (hpne _ hmem _ hp)
    | cons a b => exact ⟨a, b, rfl⟩
  obtain ⟨d0, dtl, rfl⟩ : ∃ d0 dtl, digits = d0 :: dtl := by
    cases digits with
    | nil => exact absurd rfl hne
    | cons a b => exact ⟨a, b, rfl⟩
  have hc0 := hChars _ hmem _ hp c0 (by simp)
  have hd0 := hd d0 (by simp)
  have hnospace : ∀ c ∈ (if sign then ['-'] else []) ++ (c0 :: ptl) ++ (d0 :: dtl),
      pyIsSpace c = false := by
    intro c hc
    rcases List.mem_append.mp hc with hc | hc
    · rcases List.mem_append.mp hc with hc | hc
      · cases sign <;> simp at hc
        subst hc; decide
      · exact (hChars _ hmem _ hp c hc).1
    · exact digit_not_space (hd c hc)
  have hstrip := pyStrip_eq_self _ hnospace
  have hlower : ((if sign then ['-'] else []) ++ (c0 :: ptl) ++ (d0 :: dtl)).map Char.toLower =
      (if sign then ['-'] else []) ++ (c0 :: ptl) ++ (d0 :: dtl) := by
    apply map_toLower_fixed
    intro c hc
    rcases List.mem_append.mp hc with hc | hc
    · rcases List.mem_append.mp hc with hc | hc
      · cases sign <;> simp at hc
        subst hc; decide
      · exact (hChars _ hmem _ hp c hc).2.1
    · exact digit_toLower (hd c hc)
  have hfind := findTypeMatch_canonical hd ty ps (c0 :: ptl) hmem hp
  simp only [List.cons_append] at hfind
  have hd0nosep : List.dropWhile (fun c => decide (c ∈ ([':', ';', '.', ','] : List Char)))
      (d0 :: dtl) = d0 :: dtl := by
    apply dropWhile_eq_self _ (d0 :: dtl)
    intro c hc
    have hcd := hd c hc
    simp only [decide_eq_false_iff_not, List.mem_cons, List.not_mem_nil, or_false]
    rintro (rfl | rfl | rfl | rfl) <;> exact absurd hcd (by decide)
  simp only [List.mem_cons, List.not_mem_nil, or_false, Bool.decide_or] at hd0nosep
  have hlstD : pyLstrip (d0 :: dtl) = d0 :: dtl := by
    simp [pyLstrip, List.dropWhile_cons, digit_not_space hd0]
  have hnum : pyIsNumeric (d0 :: dtl) = true := by
    simp only [pyIsNumeric, List.isEmpty_cons, Bool.not_false, Bool.true_and]
    rw [List.all_eq_true]
    exact hd
  have hlstP : pyLstrip (c0 :: (ptl ++ d0 :: dtl)) = c0 :: (ptl ++ d0 :: dtl) := by
    simp [pyLstrip, List.dropWhile_cons, hc0.1]
  cases sign
  · simp only [Bool.false_eq_true, if_false, List.nil_append, List.cons_append] at hstrip hlower
    have hsw : pyStartsWith ['-'] (c0 :: (ptl ++ d0 :: dtl)) = false := by
      simp [pyStartsWith, hc0.2.2.1]
    have hdropP : List.dropWhile (fun c => decide (c = '+')) (c0 :: (ptl ++ d0 :: dtl)) =
        c0 :: (ptl ++ d0 :: dtl) := by
      simp [List.dropWhile_cons, hc0.2.2.2.2]
    simp [processToken, hstrip, hlower, hsw, hdropP, hlstP, hfind, hd0nosep, hlstD, hnum]
  · simp only [if_pos, List.singleton_append, List.cons_append, List.nil_append] at hstrip hlower
    have hdropM : List.dropWhile (fun c => decide (c = '-')) ('-' :: (c0 :: (ptl ++ d0 :: dtl))) =
        c0 :: (ptl ++ d0 :: dtl) := by
      simp [List.dropWhile_cons, hc0.2.2.2.1]
    simp [processToken, hstrip, hlower, pyStartsWith, hdropM, hlstP, hfind, hd0nosep,
      hlstD, hnum]

/-! ## Claims C2 and C3 -/

/-- C2 counterexample: two entries with equal timestamps coming from
changesets 1 and 2 are merged keeping the ascending-changeset input order, so
the output is not sorted by the spec's descending-changeset tie-break. -/
theorem cex_C2 :
    merge_and_sort_diffs cexDiffs = some { node := [cexEntryA, cexEntryB] } ∧
    cexEntryA.timestamp = cexEntryB.timestamp ∧
    cexEntryA.changeset_id < cexEntryB.changeset_id ∧
    ¬ ([cexEntryA, cexEntryB].Pairwise specMergeOrder) := by
  refine ⟨?_, by decide, by decide, by decide⟩
  simp [cexDiffs, cexEntryA, cexEntryB, merge_and_sort_diffs, concatDiff, sortByNewest,
    List.mergeSort, List.splitInTwo, List.splitAt, List.splitAt.go, List.merge, tsLE]

/-- C2 (amended): whenever `merge_and_sort_diffs` returns a result, each
element type's output is a permutation of that type's concatenated input
lists, sorted by non-increasing timestamp; equal-timestamp entries keep their
concatenation order (stability) — there is no changeset-id or version
tie-break. -/
theorem claim_C2 (diffs : List ChangesetDiff) (out : ChangesetDiff)
    (h : merge_and_sort_diffs diffs = some out) :
    (newestFirst out.node ∧
      out.node.Perm ((diffs.map (fun x => x.node)).flatten) ∧
      stableFor ((diffs.map (fun x => x.node)).flatten) out.node) ∧
    (newestFirst out.way ∧
      out.way.Perm ((diffs.map (fun x => x.way)).flatten) ∧
      stableFor ((diffs.map (fun x => x.way)).flatten) out.way) ∧
    (newestFirst out.relation ∧
      out.relation.Perm ((diffs.map (fun x => x.relation)).flatten) ∧
      stableFor ((diffs.map (fun x => x.relation)).flatten) out.relation) := by
  match diffs with
  | [] => simp [merge_and_sort_diffs] at h
  | d :: rest =>
    rw [merge_and_sort_diffs_eq] at h
    injection h with h
    subst h
    exact ⟨⟨sortByNewest_pairwise _, sortByNewest_perm _, sortByNewest_stable _⟩,
      ⟨sortByNewest_pairwise _, sortByNewest_perm _, sortByNewest_stable _⟩,
      ⟨sortByNewest_pairwise _, sortByNewest_perm _, sortByNewest_stable _⟩⟩

/-- C2 witness: the amended statement instantiated at `wDiffsC2`. -/
theorem witness_C2 :
    (newestFirst wOutC2.node ∧
      wOutC2.node.Perm ((wDiffsC2.map (fun x => x.node)).flatten) ∧
      stableFor ((wDiffsC2.map (fun x => x.node)).flatten) wOutC2.node) ∧
    (newestFirst wOutC2.way ∧
      wOutC2.way.Perm ((wDiffsC2.map (fun x => x.way)).flatten) ∧
      stableFor ((wDiffsC2.map (fun x => x.way)).flatten) wOutC2.way) ∧
    (newestFirst wOutC2.relation ∧
      wOutC2.relation.Perm ((wDiffsC2.map (fun x => x.relation)).flatten) ∧
      stableFor ((wDiffsC2.map (fun x => x.relation)).flatten) wOutC2.relation) :=
  claim_C2 wDiffsC2 wOutC2 (by
    simp [wDiffsC2, wOutC2, wEntryNew, wEntryOld, merge_and_sort_diffs, concatDiff,
      sortByNewest, List.mergeSort, List.splitInTwo, List.splitAt, List.splitAt.go,
      List.merge, tsLE])

/-- C3: `merge_and_sort_diffs` performs no deduplication: whenever it returns
a result, each element type's output length equals the sum of that type's
input lengths, and the output is a permutation of the concatenation, so an
element occurring in two targeted changesets contributes both entries. -/
theorem claim_C3 (diffs : List ChangesetDiff) (out : ChangesetDiff)
    (h : merge_and_sort_diffs diffs = some out) :
    (out.node.length = (diffs.map (fun x => x.node.length)).sum ∧
      out.way.length = (diffs.map (fun x => x.way.length)).sum ∧
      out.relation.length = (diffs.map (fun x => x.relation.length)).sum) ∧
    (out.node.Perm ((diffs.map (fun x => x.node)).flatten) ∧
      out.way.Perm ((diffs.map (fun x => x.way)).flatten) ∧
      out.relation.Perm ((diffs.map (fun x => x.relation)).flatten)) := by
  match diffs with
  | [] => simp [merge_and_sort_diffs] at h
  | d :: rest =>
    rw [merge_and_sort_diffs_eq] at h
    injection h with h
    subst h
    refine ⟨⟨?_, ?_, ?_⟩, sortByNewest_perm _, sortByNewest_perm _, sortByNewest_perm _⟩ <;>
      simp [sortByNewest, List.length_flatten, Function.comp_def]

/-- C3 witness: node 7, edited by both changeset 10 and changeset 11, keeps
both entries in the merged output. -/
theorem witness_C3 :
    (wOutC3.node.length = (wDiffsC3.map (fun x => x.node.length)).sum ∧
      wOutC3.way.length = (wDiffsC3.map (fun x => x.way.length)).sum ∧
      wOutC3.relation.length = (wDiffsC3.map (fun x => x.relation.length)).sum) ∧
    (wOutC3.node.Perm ((wDiffsC3.map (fun x => x.node)).flatten) ∧
      wOutC3.way.Perm ((wDiffsC3.map (fun x => x.way)).flatten) ∧
      wOutC3.relation.Perm ((wDiffsC3.map (fun x => x.relation)).flatten)) :=
  claim_C3 wDiffsC3 wOutC3 (by
    simp [wDiffsC3, wOutC3, dupEntryOld, dupEntryNew, merge_and_sort_diffs, concatDiff,
      sortByNewest, List.mergeSort, List.splitInTwo, List.splitAt, List.splitAt.go,
      List.merge, tsLE])

/-! ## Claims C4, C5, C7, C8, C9, C10 -/

/-- C4: in upload mode (no `.osc` file, no printing), when the inverted
element count exceeds the service's per-upload cap, `main` returns `-1`
without ever attempting `upload_diff`. -/
theorem claim_C4 (env : Env) (a : Args) :
    a.osc_file = none → a.print_osc = false →
    ∀ s, Ev.invertDone s ∈ (mainRun env a).1 →
      env.changesetMaxSize < s →
      (mainRun env a).2 = Except.ok (-1) ∧ Ev.uploadAttempt ∉ (mainRun env a).1 := by
  intro hosc hpr s hs hcap
  rcases mainRun_shape env a with h | h | h | h | h | ⟨er, hl, h⟩ | ⟨code, hl, h⟩ |
    ⟨diffs, hl, hm, h⟩ | ⟨diffs, merged, hl, hm, h⟩
  · rw [h] at hs; simp at hs
  · rw [h] at hs; simp at hs
  · rw [h] at hs; simp at hs
  · rw [h] at hs; simp at hs
  · rw [h] at hs; simp at hs
  · rw [h] at hs
    simp only [List.mem_cons] at hs
    rcases hs with hs | hs
    · exact Ev.noConfusion hs
    · exact absurd hs (not_mem_mainLoop (by simp [isLoopEv]))
  · rw [h] at hs
    simp only [List.mem_cons] at hs
    rcases hs with hs | hs
    · exact Ev.noConfusion hs
    · exact absurd hs (not_mem_mainLoop (by simp [isLoopEv]))
  · rw [h] at hs
    simp only [List.mem_cons] at hs
    rcases hs with hs | hs
    · exact Ev.noConfusion hs
    · exact absurd hs (not_mem_mainLoop (by simp [isLoopEv]))
  · rw [h] at hs
    simp only [List.cons_append, List.mem_cons, List.mem_append] at hs
    rcases hs with hs | hs | hs
    · exact Ev.noConfusion hs
    · exact absurd hs (not_mem_mainLoop (by simp [isLoopEv]))
    · have hseq := mainTail_invertDone hs
      subst hseq
      have hz : invertSize (env.updateParents (env.invertDiff merged)).2 ≠ 0 := by omega
      have ht := mainTail_tooBig (mainCids a) hz hosc hpr hcap
      rw [h]
      refine ⟨by rw [ht], ?_⟩
      intro hu
      rcases List.mem_cons.mp hu with hu | hu
      · exact Ev.noConfusion hu
      · rcases List.mem_append.mp hu with hu | hu
        · exact absurd hu (not_mem_mainLoop (by simp [isLoopEv]))
        · rw [ht] at hu
          simp at hu

/-- C7: when inversion yields zero elements, `main` reports nothing to
revert and returns success `0` without building a change document, writing an
`.osc` file, printing it, or attempting an upload. -/
theorem claim_C7 (env : Env) (a : Args) :
    Ev.invertDone 0 ∈ (mainRun env a).1 →
      (mainRun env a).2 = Except.ok 0 ∧
      Ev.buildOsc ∉ (mainRun env a).1 ∧
      Ev.writeOscFile ∉ (mainRun env a).1 ∧
      Ev.printOscOut ∉ (mainRun env a).1 ∧
      Ev.uploadAttempt ∉ (mainRun env a).1 := by
  intro hs
  rcases mainRun_shape env a with h | h | h | h | h | ⟨er, hl, h⟩ | ⟨code, hl, h⟩ |
    ⟨diffs, hl, hm, h⟩ | ⟨diffs, merged, hl, hm, h⟩
  · rw [h] at hs; simp at hs
  · rw [h] at hs; simp at hs
  · rw [h] at hs; simp at hs
  · rw [h] at hs; simp at hs
  · rw [h] at hs; simp at hs
  · rw [h] at hs
    simp only [List.mem_cons] at hs
    rcases hs with hs | hs
    · exact Ev.noConfusion hs
    · exact absurd hs (not_mem_mainLoop (by simp [isLoopEv]))
  · rw [h] at hs
    simp only [List.mem_cons] at hs
    rcases hs with hs | hs
    · exact Ev.noConfusion hs
    · exact absurd hs (not_mem_mainLoop (by simp [isLoopEv]))
  · rw [h] at hs
    simp only [List.mem_cons] at hs
    rcases hs with hs | hs
    · exact Ev.noConfusion hs
    · exact absurd hs (not_mem_mainLoop (by simp [isLoopEv]))
  · rw [h] at hs
    simp only [List.cons_append, List.mem_cons, List.mem_append] at hs
    rcases hs with hs | hs | hs
    · exact Ev.noConfusion hs
    · exact absurd hs (not_mem_mainLoop (by simp [isLoopEv]))
    · have hseq := mainTail_invertDone hs
      have hz : invertSize (env.updateParents (env.invertDiff merged)).2 = 0 := hseq.symm
      have ht := mainTail_zero a (mainCids a) hz
      rw [h]
      refine ⟨by rw [ht], ?_, ?_, ?_, ?_⟩ <;>
      · intro hu
        rcases List.mem_cons.mp hu with hu | hu
        · exact Ev.noConfusion hu
        · rcases List.mem_append.mp hu with hu | hu
          · exact absurd hu (not_mem_mainLoop (by simp [isLoopEv]))
          · rw [ht] at hu
            simp at hu

/-- C10: after a successful upload, `main` unconditionally strips the
discussion argument; with no discussion text supplied this raises, and the
timer wrapper turns the run into exit code `-2` although the upload already
succeeded. -/
theorem claim_C10 (env : Env) (a : Args) :
    ∀ i, Ev.uploadOk i ∈ (mainRun env a).1 → a.discussion = none →
      (mainRun env a).2 = Except.error Err.stripNoneDiscussion ∧
      main_timer (mainRun env a) = -2 := by
  intro i hs hd
  rcases mainRun_shape env a with h | h | h | h | h | ⟨er, hl, h⟩ | ⟨code, hl, h⟩ |
    ⟨diffs, hl, hm, h⟩ | ⟨diffs, merged, hl, hm, h⟩
  · rw [h] at hs; simp at hs
  · rw [h] at hs; simp at hs
  · rw [h] at hs; simp at hs
  · rw [h] at hs; simp at hs
  · rw [h] at hs; simp at hs
  · rw [h] at hs
    simp only [List.mem_cons] at hs
    rcases hs with hs | hs
    · exact Ev.noConfusion hs
    · exact absurd hs (not_mem_mainLoop (by simp [isLoopEv]))
  · rw [h] at hs
    simp only [List.mem_cons] at hs
    rcases hs with hs | hs
    · exact Ev.noConfusion hs
    · exact absurd hs (not_mem_mainLoop (by simp [isLoopEv]))
  · rw [h] at hs
    simp only [List.mem_cons] at hs
    rcases hs with hs | hs
    · exact Ev.noConfusion hs
    · exact absurd hs (not_mem_mainLoop (by simp [isLoopEv]))
  · rw [h] at hs
    simp only [List.cons_append, List.mem_cons, List.mem_append] at hs
    rcases hs with hs | hs | hs
    · exact Ev.noConfusion hs
    · exact absurd hs (not_mem_mainLoop (by simp [isLoopEv]))
    · have ht := mainTail_uploadOk_discussion_none hs hd
      rw [h]
      constructor
      · exact ht
      · simp [main_timer, h, ht]

/-- C8 (amended): when a policy limit is hit — the account-based changesets
limit is zero (too few edits), the limit is below the number of targeted
changesets, or a fetched changeset is moderator-authored while the
requesting user is both not a moderator and below the
`CHANGESETS_LIMIT_MODERATOR_REVERT` edit threshold (line 190 skips the
author check for experienced non-moderators) — `main` returns `-1` with no
upload attempted and no inversion performed. -/
theorem claim_C8 (env : Env) (a : Args)
    (hv1 : (preprocessIds a.changeset_ids).isEmpty = false)
    (hv2 : (preprocessIds a.changeset_ids).all pyNumericStr = true)
    (hp : policyBlocked env a) :
    (mainRun env a).2 = Except.ok (-1) ∧
    Ev.uploadAttempt ∉ (mainRun env a).1 ∧
    (∀ s, Ev.invertDone s ∉ (mainRun env a).1) := by
  rcases hp with ⟨h0, hk⟩ | ⟨L, hL, hL0, hLlen⟩ | ⟨cid, hc, hlt, hmod, hauth⟩
  · rcases hk2 : minPositiveKey env with _ | k
    · exact absurd hk2 hk
    · have heq : mainRun env a = ([Ev.login], Except.ok (-1)) := by
        simp [mainRun, hv1, hv2, h0, hk2]
      rw [heq]
      refine ⟨rfl, by simp, by simp⟩
  · have heq : mainRun env a = ([Ev.login], Except.ok (-1)) := by
      simp [mainRun, hv1, hv2, hL, hL0, hLlen]
    rw [heq]
    refine ⟨rfl, by simp, by simp⟩
  · have hhit : modCheckHit env cid = true := by
      simp [modCheckHit, modBlocked, hlt, hmod, hauth]
    rcases mainRun_shape env a with h | h | h | h | h | ⟨er, hl, h⟩ | ⟨code, hl, h⟩ |
      ⟨diffs, hl, hm, h⟩ | ⟨diffs, merged, hl, hm, h⟩
    · rw [h] at hc; simp at hc
    · rw [h] at hc; simp at hc
    · rw [h] at hc; simp at hc
    · rw [h] at hc; simp at hc
    · rw [h] at hc; simp at hc
    · rw [h] at hc
      simp only [List.mem_cons] at hc
      rcases hc with hc | hc
      · exact Ev.noConfusion hc
      · have hb := mainLoop_blocked_result env (mainCids a) cid hc hhit
        rw [hl] at hb
        exact Except.noConfusion hb
    · rw [h] at hc
      simp only [List.mem_cons] at hc
      rcases hc with hc | hc
      · exact Ev.noConfusion hc
      · have hb := mainLoop_blocked_result env (mainCids a) cid hc hhit
        rw [hl] at hb
        injection hb with hb
        injection hb with hb
        subst hb
        rw [h]
        refine ⟨rfl, ?_, ?_⟩
        · intro hu
          rcases List.mem_cons.mp hu with hu | hu
          · exact Ev.noConfusion hu
          · exact absurd hu (not_mem_mainLoop (by simp [isLoopEv]))
        · intro s hu
          rcases List.mem_cons.mp hu with hu | hu
          · exact Ev.noConfusion hu
          · exact absurd hu (not_mem_mainLoop (by simp [isLoopEv]))
    · rw [h] at hc
      simp only [List.mem_cons] at hc
      rcases hc with hc | hc
      · exact Ev.noConfusion hc
      · have hb := mainLoop_blocked_result env (mainCids a) cid hc hhit
        rw [hl] at hb
        injection hb with hb
        exact Sum.noConfusion hb
    · rw [h] at hc
      simp only [List.cons_append, List.mem_cons, List.mem_append] at hc
      rcases hc with hc | hc | hc
      · exact Ev.noConfusion hc
      · have hb := mainLoop_blocked_result env (mainCids a) cid hc hhit
        rw [hl] at hb
        injection hb with hb
        exact Sum.noConfusion hb
      · exact absurd hc (not_mem_mainTail (by simp [isLoopEv]))

/-- C9: `merge_and_sort_diffs` fails on the empty list, so a run in which
every targeted changeset declares zero elements raises the `IndexError`
(exit code `-2` through the timer wrapper) instead of reporting nothing to
revert. -/
theorem claim_C9 (env : Env) (a : Args) (L : Nat)
    (hv1 : (preprocessIds a.changeset_ids).isEmpty = false)
    (hv2 : (preprocessIds a.changeset_ids).all pyNumericStr = true)
    (h3 : changesetsLimit env = some L) (h4 : L ≠ 0)
    (h6 : ¬ L < (preprocessIds a.changeset_ids).length)
    (hsz : ∀ cid ∈ mainCids a, changesetSize env cid = 0)
    (hmb : ∀ cid ∈ mainCids a, modCheckHit env cid = false) :
    merge_and_sort_diffs ([] : List ChangesetDiff) = none ∧
    (mainRun env a).2 = Except.error Err.emptyDiffsIndexError ∧
    main_timer (mainRun env a) = -2 := by
  have hl : (mainLoop env (mainCids a)).2 = Except.ok (Sum.inr []) :=
    mainLoop_all_empty env (mainCids a) hsz hmb
  have heq : (mainRun env a).2 = Except.error Err.emptyDiffsIndexError := by
    simp [mainRun, hv1, hv2, h3, h4, h6, hl, merge_and_sort_diffs]
  refine ⟨rfl, heq, ?_⟩
  simp [main_timer, heq]

/-- C5 (amended): only the changeset-id validation rejects input before any
network call (the run's event trace stays empty); element-filter tokens are
never parsed by `main` (`build_element_ids_dict` has no caller there), and a
discussion text below the minimum length is not rejected: after a successful
upload it is silently skipped — success with no discussion comment posted. -/
theorem claim_C5 (env : Env) (a : Args) :
    ((preprocessIds a.changeset_ids).isEmpty = true →
      mainRun env a = ([], Except.error Err.missingChangesetId)) ∧
    ((preprocessIds a.changeset_ids).isEmpty = false →
      (preprocessIds a.changeset_ids).all pyNumericStr = false →
      mainRun env a = ([], Except.error Err.nonNumericChangesetId)) ∧
    (∀ (dtext : String) (i : Nat), a.discussion = some dtext →
      ¬ 4 ≤ (String.mk (pyStrip dtext.toList)).length →
      Ev.uploadOk i ∈ (mainRun env a).1 →
      (mainRun env a).2 = Except.ok 0 ∧
      (∀ j, Ev.postComment j ∉ (mainRun env a).1)) := by
  refine ⟨?_, ?_, ?_⟩
  · intro h1
    simp [mainRun, h1]
  · intro h1 h2
    simp [mainRun, h1, h2]
  · intro dtext i hd hlen hs
    rcases mainRun_shape env a with h | h | h | h | h | ⟨er, hl, h⟩ | ⟨code, hl, h⟩ |
      ⟨diffs, hl, hm, h⟩ | ⟨diffs, merged, hl, hm, h⟩
    · rw [h] at hs; simp at hs
    · rw [h] at hs; simp at hs
    · rw [h] at hs; simp at hs
    · rw [h] at hs; simp at hs
    · rw [h] at hs; simp at hs
    · rw [h] at hs
      simp only [List.mem_cons] at hs
      rcases hs with hs | hs
      · exact Ev.noConfusion hs
      · exact absurd hs (not_mem_mainLoop (by simp [isLoopEv]))
    · rw [h] at hs
      simp only [List.mem_cons] at hs
      rcases hs with hs | hs
      · exact Ev.noConfusion hs
      · exact absurd hs (not_mem_mainLoop (by simp [isLoopEv]))
    · rw [h] at hs
      simp only [List.mem_cons] at hs
      rcases hs with hs | hs
      · exact Ev.noConfusion hs
      · exact absurd hs (not_mem_mainLoop (by simp [isLoopEv]))
    · rw [h] at hs
      simp only [List.cons_append, List.mem_cons, List.mem_append] at hs
      rcases hs with hs | hs | hs
      · exact Ev.noConfusion hs
      · exact absurd hs (not_mem_mainLoop (by simp [isLoopEv]))
      · have ht := mainTail_uploadOk_short_discussion hs hd hlen
        rw [h]
        refine ⟨ht.1, ?_⟩
        intro j hu
        rcases List.mem_cons.mp hu with hu | hu
        · exact Ev.noConfusion hu
        · rcases List.mem_append.mp hu with hu | hu
          · exact absurd hu (not_mem_mainLoop (by simp [isLoopEv]))
          · exact absurd hu (ht.2 j)

/-! ## Witnesses and the C5 counterexample -/

/-- C1 witness: changeset 7 declares one element but its diff holds two; the
run aborts with the assertion failure, no inversion, no upload. -/
theorem witness_C1 :
    (mainRun envC1 argsOne).2 =
      Except.error (Err.diffTooLarge (diffSize diffC1) (changesetSize envC1 7)) ∧
    (∀ s, Ev.invertDone s ∉ (mainRun envC1 argsOne).1) ∧
    Ev.uploadAttempt ∉ (mainRun envC1 argsOne).1 :=
  (claim_C1 envC1 argsOne).1 7 diffC1
    (by simp [mainRun, mainCids, preprocessIds, sortStrings, List.mergeSort, pyStrip,
      pyIsSpace, pyNumericStr, pyIsNumeric, envC1, envBase, argsOne, changesetsLimit,
      minPositiveKey, mainLoop, modCheckHit, modCheckEvs, modBlocked, changesetSize,
      diffSize, diffC1, cexEntryA, cexEntryB, pyInt])
    rfl (by decide)

/-- C4 witness: three inverted elements against a cap of two; the run returns
`-1` and never attempts the upload. -/
theorem witness_C4 :
    (mainRun envC4 argsOne).2 = Except.ok (-1) ∧
    Ev.uploadAttempt ∉ (mainRun envC4 argsOne).1 :=
  claim_C4 envC4 argsOne rfl rfl 3
    (by simp [mainRun, mainCids, preprocessIds, sortStrings, List.mergeSort, pyStrip,
      pyIsSpace, pyNumericStr, pyIsNumeric, envC4, envBase, argsOne, changesetsLimit,
      minPositiveKey, mainLoop, modCheckHit, modCheckEvs, modBlocked, changesetSize,
      diffSize, merge_and_sort_diffs, concatDiff, sortByNewest, List.splitInTwo,
      List.splitAt, List.splitAt.go, List.merge, tsLE, mainTail, invertSize, wEntryRun,
      pyInt, filter_discussion_changesets])
    (by decide)

/-- C5 witness: invoking `main` with no changeset ids fails validation with an
empty event trace — rejected before any network call. -/
theorem witness_C5 :
    mainRun envBase argsEmpty = ([], Except.error Err.missingChangesetId) :=
  (claim_C5 envBase argsEmpty).1
    (by simp [preprocessIds, sortStrings, List.mergeSort, argsEmpty])

/-- C7 witness: the inversion of changeset 7 is empty; the run succeeds with
exit code `0` and no output side effects. -/
theorem witness_C7 :
    (mainRun envC7 argsOne).2 = Except.ok 0 ∧
    Ev.buildOsc ∉ (mainRun envC7 argsOne).1 ∧
    Ev.writeOscFile ∉ (mainRun envC7 argsOne).1 ∧
    Ev.printOscOut ∉ (mainRun envC7 argsOne).1 ∧
    Ev.uploadAttempt ∉ (mainRun envC7 argsOne).1 :=
  claim_C7 envC7 argsOne
    (by simp [mainRun, mainCids, preprocessIds, sortStrings, List.mergeSort, pyStrip,
      pyIsSpace, pyNumericStr, pyIsNumeric, envC7, envBase, argsOne, changesetsLimit,
      minPositiveKey, mainLoop, modCheckHit, modCheckEvs, modBlocked, changesetSize,
      diffSize, merge_and_sort_diffs, concatDiff, sortByNewest, List.splitInTwo,
      List.splitAt, List.splitAt.go, List.merge, tsLE, mainTail, invertSize, wEntryRun,
      pyInt, filter_discussion_changesets])

/-- C8 witness: a 3-edit non-moderator below the 10-edit moderator-revert
threshold targets a moderator-authored changeset; the fetch triggers the
guard and the run stops with `-1`, no inversion, no upload. -/
theorem witness_C8 :
    (mainRun envC8guard argsOne).2 = Except.ok (-1) ∧
    Ev.uploadAttempt ∉ (mainRun envC8guard argsOne).1 ∧
    (∀ s, Ev.invertDone s ∉ (mainRun envC8guard argsOne).1) :=
  claim_C8 envC8guard argsOne
    (by simp [preprocessIds, sortStrings, List.mergeSort, pyStrip, pyIsSpace, argsOne])
    (by simp [preprocessIds, sortStrings, List.mergeSort, pyStrip, pyIsSpace, argsOne,
      pyNumericStr, pyIsNumeric])
    (Or.inr (Or.inr ⟨7,
      by simp [mainRun, mainCids, preprocessIds, sortStrings, List.mergeSort, pyStrip,
        pyIsSpace, pyNumericStr, pyIsNumeric, envC8guard, envBase, argsOne,
        changesetsLimit, minPositiveKey, mainLoop, modCheckHit, modCheckEvs, modBlocked,
        changesetSize, diffSize, pyInt],
      by decide, rfl, rfl⟩))

/-- C8 counterexample: a 100-edit non-moderator (at or above the 10-edit
moderator-revert threshold) targets a moderator-authored changeset; the
guard is skipped, the revert is generated and uploaded, and the run returns
success instead of aborting with `-1`. -/
theorem cex_C8 :
    envC8free.user_is_moderator = false ∧
    envC8free.authorIsModerator 7 = some true ∧
    Ev.getChangeset 7 ∈ (mainRun envC8free argsC5).1 ∧
    Ev.uploadOk 9 ∈ (mainRun envC8free argsC5).1 ∧
    (mainRun envC8free argsC5).2 = Except.ok 0 := by
  refine ⟨rfl, rfl, ?_, ?_, ?_⟩ <;>
  simp [mainRun, mainCids, preprocessIds, sortStrings, List.mergeSort, pyStrip,
    pyIsSpace, pyNumericStr, pyIsNumeric, envC8free, envBase, argsC5, changesetsLimit,
    minPositiveKey, mainLoop, modCheckHit, modCheckEvs, modBlocked, changesetSize,
    diffSize, merge_and_sort_diffs, concatDiff, sortByNewest, List.splitInTwo,
    List.splitAt, List.splitAt.go, List.merge, tsLE, mainTail, invertSize, wEntryRun,
    pyInt, filter_discussion_changesets]

/-- C9 witness: changeset 7 declares zero elements, so the run raises the
merge `IndexError` and the timer wrapper exits with `-2`. -/
theorem witness_C9 :
    merge_and_sort_diffs ([] : List ChangesetDiff) = none ∧
    (mainRun envC9 argsOne).2 = Except.error Err.emptyDiffsIndexError ∧
    main_timer (mainRun envC9 argsOne) = -2 :=
  claim_C9 envC9 argsOne 5
    (by simp [preprocessIds, sortStrings, List.mergeSort, pyStrip, pyIsSpace, argsOne])
    (by simp [preprocessIds, sortStrings, List.mergeSort, pyStrip, pyIsSpace, argsOne,
      pyNumericStr, pyIsNumeric])
    (by decide) (by decide)
    (by simp [preprocessIds, sortStrings, List.mergeSort, pyStrip, pyIsSpace, argsOne])
    (fun cid _ => rfl) (fun cid _ => rfl)

/-- C10 witness: the upload succeeds (changeset 9 created) with no discussion
text; the run ends in the strip `AttributeError` and exit code `-2`. -/
theorem witness_C10 :
    (mainRun envBase argsC10).2 = Except.error Err.stripNoneDiscussion ∧
    main_timer (mainRun envBase argsC10) = -2 :=
  claim_C10 envBase argsC10 9
    (by simp [mainRun, mainCids, preprocessIds, sortStrings, List.mergeSort, pyStrip,
      pyIsSpace, pyNumericStr, pyIsNumeric, envBase, argsC10, changesetsLimit,
      minPositiveKey, mainLoop, modCheckHit, modCheckEvs, modBlocked, changesetSize,
      diffSize, merge_and_sort_diffs, concatDiff, sortByNewest, List.splitInTwo,
      List.splitAt, List.splitAt.go, List.merge, tsLE, mainTail, invertSize, wEntryRun,
      pyInt, filter_discussion_changesets])
    rfl

/-- C5 counterexample: a run whose discussion text "ab" is below the minimum
length is not rejected: the run performs network calls up to a successful
upload and returns success. -/
theorem cex_C5 :
    argsC5.discussion = some ("ab") ∧
    ¬ 4 ≤ (String.mk (pyStrip ("ab".toList))).length ∧
    (mainRun envBase argsC5).2 = Except.ok 0 ∧
    Ev.uploadAttempt ∈ (mainRun envBase argsC5).1 ∧
    isNetwork Ev.uploadAttempt = true := by
  refine ⟨rfl, by decide, ?_, ?_, rfl⟩ <;>
  simp [mainRun, mainCids, preprocessIds, sortStrings, List.mergeSort, pyStrip,
    pyIsSpace, pyNumericStr, pyIsNumeric, envBase, argsC5, changesetsLimit,
    minPositiveKey, mainLoop, modCheckHit, modCheckEvs, modBlocked, changesetSize,
    diffSize, merge_and_sort_diffs, concatDiff, sortByNewest, List.splitInTwo,
    List.splitAt, List.splitAt.go, List.merge, tsLE, mainTail, invertSize, wEntryRun,
    pyInt, filter_discussion_changesets]

/-! ## Claim C6 -/

/-- C6: `build_element_ids_dict` parses string-prefix element-filter tokens:
a leading `-` routes the id to the exclude sets, a recognized type prefix
(any of the ten in the `prefixes` table) selects the element type, the
numeric remainder is added to that type's set; a non-numeric remainder or a
token without a recognized prefix raises eagerly, aborting the whole fold. -/
theorem claim_C6 :
    (∀ (ty : ElemType) (ps : List (List Char)) (p digits : List Char),
      (ty, ps) ∈ typePfxs → p ∈ ps → digits ≠ [] → (∀ c ∈ digits, c.isDigit = true) →
      build_element_ids_dict [String.mk ('-' :: (p ++ digits))] =
        Except.ok (addId {} true ty (String.mk digits)) ∧
      build_element_ids_dict [String.mk (p ++ digits)] =
        Except.ok (addId {} false ty (String.mk digits))) ∧
    (∀ (pre : List String) (acc : ElementIdsDict) (tok : String) (rest : List String)
        (err : FilterErr),
      build_element_ids_dict pre = Except.ok acc →
      processToken acc tok = Except.error err →
      build_element_ids_dict (pre ++ tok :: rest) = Except.error err) ∧
    (build_element_ids_dict [String.mk ['n', '1', '2', 'a']] =
      Except.error (FilterErr.nonNumericId ElemType.node ['1', '2', 'a'])) ∧
    (build_element_ids_dict [String.mk ['-', '1', '2', '3']] =
      Except.error (FilterErr.unknownFormat ['1', '2', '3'])) := by
  refine ⟨?_, ?_, ?_, ?_⟩
  · intro ty ps p digits hmem hp hne hd
    have h1 := processToken_canonical {} true hmem hp hne hd
    have h2 := processToken_canonical {} false hmem hp hne hd
    simp only [if_pos, List.singleton_append, List.cons_append, List.nil_append,
      if_neg, Bool.false_eq_true, if_false] at h1 h2
    constructor
    · simp [build_element_ids_dict, List.foldlM, h1]
    · simp [build_element_ids_dict, List.foldlM, h2]
  · intro pre acc tok rest err h1 h2
    unfold build_element_ids_dict at *
    rw [List.foldlM_append, h1]
    simp [List.foldlM_cons, h2, Bind.bind, Except.bind]
  · rfl
  · rfl

/-- C6 witness: the tokens `-n42` and `n42` put id 42 into the node exclude
and include sets respectively. -/
theorem witness_C6 :
    build_element_ids_dict [String.mk ['-', 'n', '4', '2']] =
      Except.ok (addId {} true ElemType.node (String.mk ['4', '2'])) ∧
    build_element_ids_dict [String.mk ['n', '4', '2']] =
      Except.ok (addId {} false ElemType.node (String.mk ['4', '2'])) :=
  claim_C6.1 ElemType.node [['n','o','d','e','s'], ['n','o','d','e'], ['n']] ['n'] ['4', '2']
    (by decide) (by decide) (by decide) (by decide)


end OsmRevert
